import Mathlib

/-!
Verification of the map-overlay tile pipeline.

This file gives a shallow embedding of the core of the repository
(`coordinate_utils.py`, `tile_fetcher.py`, `image_stitcher.py`) and proves or
refutes the specification claims about it.

Modelling conventions:
* Python floats are modelled as real numbers (`ℝ`).
* `int(...)` applied to a float truncates toward zero (`pyTrunc`);
  `round(...)` rounds half to even (`pyRound`), as in Python 3.
* Effectful code (HTTP, disk cache) is modelled by explicit state passing:
  a `FetchEnv` records the cache contents and the behaviour of the network
  and of the image codec for each tile key; `fetch_tile` returns the result,
  the updated environment and the number of network requests it issued.
  Exceptions raised and caught inside the Python code correspond to the
  `none` / failure branches of the model; a Python function that can raise
  to its caller is modelled with `Except`.
* The PIL raster primitives (image decode, resampling, line drawing,
  alpha compositing) are external black boxes per the specification; they
  are passed in as function parameters where their output pixels do not
  matter, and the disk codec round-trip (PNG, lossless) is modelled as the
  identity, so the cache stores decoded images.
-/

namespace MapOverlay

/-- Python `int()` on a float: truncation toward zero. -/
noncomputable def pyTrunc (x : ℝ) : ℤ := if 0 ≤ x then ⌊x⌋ else ⌈x⌉

/-- Python 3 `round()` on a float: round half to even. -/
noncomputable def pyRound (x : ℝ) : ℤ :=
  if Int.fract x = 1 / 2 then (if Even ⌊x⌋ then ⌊x⌋ else ⌊x⌋ + 1) else round x

/-- Model of `math.radians`. -/
noncomputable def radians (d : ℝ) : ℝ := d * Real.pi / 180

/-- Model of `math.degrees`. -/
noncomputable def degrees (r : ℝ) : ℝ := r * 180 / Real.pi

/-- Embedding of `lat_lon_to_tile` from `coordinate_utils.py`:
`x = int((lon + 180)/360 * n)`, `y = int((1 - asinh(tan(lat_rad))/pi)/2 * n)`
with `n = 2.0 ** zoom`. -/
noncomputable def lat_lon_to_tile (lat lon : ℝ) (zoom : ℕ) : ℤ × ℤ :=
  let lat_rad := radians lat
  let n : ℝ := 2 ^ zoom
  let x := pyTrunc ((lon + 180) / 360 * n)
  let y := pyTrunc ((1 - Real.arsinh (Real.tan lat_rad) / Real.pi) / 2 * n)
  (x, y)

/-- Embedding of `tile_to_lat_lon` from `coordinate_utils.py`
(top-left corner of the tile). -/
noncomputable def tile_to_lat_lon (x y : ℤ) (zoom : ℕ) : ℝ × ℝ :=
  let n : ℝ := 2 ^ zoom
  let lon := (x : ℝ) / n * 360 - 180
  let lat_rad := Real.arctan (Real.sinh (Real.pi * (1 - 2 * (y : ℝ) / n)))
  (degrees lat_rad, lon)

/-- Embedding of `meters_to_lat_lon_offset` from `coordinate_utils.py`. -/
noncomputable def meters_to_lat_lon_offset (lat dx_m dy_m : ℝ) : ℝ × ℝ :=
  let R : ℝ := 6378137
  let dlat_rad := dy_m / R
  let dlon_rad := dx_m / (R * Real.cos (radians lat))
  (degrees dlat_rad, degrees dlon_rad)

/-- The bounding-box record returned by `calculate_bounding_box`. -/
structure BoundingBox where
  min_lat : ℝ
  max_lat : ℝ
  min_lon : ℝ
  max_lon : ℝ

/-- Embedding of `calculate_bounding_box` from `coordinate_utils.py`. -/
noncomputable def calculate_bounding_box (center_lat center_lon width_m height_m : ℝ) :
    BoundingBox :=
  let d := meters_to_lat_lon_offset center_lat (width_m / 2) (height_m / 2)
  { min_lat := center_lat - d.1
    max_lat := center_lat + d.1
    min_lon := center_lon - d.2
    max_lon := center_lon + d.2 }

/-- Embedding of `calculate_optimal_zoom` from `coordinate_utils.py`:
`max(0, min(19, int(round(log2(base/target)))))` where
`base = 156543.03392 * cos(radians(lat))` and `target = width_m / image_size`. -/
noncomputable def calculate_optimal_zoom (width_m image_size lat : ℝ) : ℤ :=
  let meters_per_pixel_zoom0 : ℝ := 156543.03392 * Real.cos (radians lat)
  let target_meters_per_pixel := width_m / image_size
  let zoom := Real.logb 2 (meters_per_pixel_zoom0 / target_meters_per_pixel)
  max 0 (min 19 (pyRound zoom))

/-- The tile-rectangle record returned by `get_tile_bounds` and consumed by
the fetcher and the stitcher. -/
structure TileBounds where
  min_tile_x : ℤ
  max_tile_x : ℤ
  min_tile_y : ℤ
  max_tile_y : ℤ
  zoom : ℕ

/-- Embedding of `get_tile_bounds` from `coordinate_utils.py`: the bounding
box corners are mapped through `lat_lon_to_tile` (the minimum latitude gives
the maximum tile y) and the result is expanded by `padding` on every side. -/
noncomputable def get_tile_bounds (center_lat center_lon width_m height_m : ℝ)
    (zoom : ℕ) (padding : ℤ) : TileBounds :=
  let bbox := calculate_bounding_box center_lat center_lon width_m height_m
  let p1 := lat_lon_to_tile bbox.min_lat bbox.min_lon zoom
  let p2 := lat_lon_to_tile bbox.max_lat bbox.max_lon zoom
  { min_tile_x := p1.1 - padding
    max_tile_x := p2.1 + padding
    min_tile_y := p2.2 - padding
    max_tile_y := p1.2 + padding
    zoom := zoom }

/-! ### Basic lemmas about the Python primitives -/

theorem pyTrunc_mono : Monotone pyTrunc := by
  intro x y hxy
  unfold pyTrunc
  by_cases hx : 0 ≤ x
  · rw [if_pos hx, if_pos (hx.trans hxy)]
    exact Int.floor_le_floor hxy
  · rw [if_neg hx]
    by_cases hy : 0 ≤ y
    · rw [if_pos hy]
      calc ⌈x⌉ ≤ ⌈(0 : ℝ)⌉ := Int.ceil_le_ceil (le_of_not_le hx)
        _ = 0 := by simp
        _ ≤ ⌊y⌋ := Int.le_floor.mpr (by simpa using hy)
    · rw [if_neg hy]
      exact Int.ceil_le_ceil hxy

theorem pyTrunc_intCast (n : ℤ) : pyTrunc (n : ℝ) = n := by
  unfold pyTrunc
  by_cases h : (0 : ℝ) ≤ (n : ℝ)
  · rw [if_pos h, Int.floor_intCast]
  · rw [if_neg h, Int.ceil_intCast]

theorem pyTrunc_eq_floor {x : ℝ} (hx : 0 ≤ x) : pyTrunc x = ⌊x⌋ := if_pos hx

theorem pyTrunc_nonneg {x : ℝ} (hx : 0 ≤ x) : 0 ≤ pyTrunc x := by
  rw [pyTrunc_eq_floor hx]
  exact Int.floor_nonneg.mpr hx

theorem le_pyTrunc {x : ℝ} {m : ℤ} (hm : 0 ≤ m) (hx : (m : ℝ) ≤ x) : m ≤ pyTrunc x := by
  rw [pyTrunc_eq_floor (le_trans (by exact_mod_cast hm) hx)]
  exact Int.le_floor.mpr hx

theorem pyTrunc_lt {x : ℝ} {m : ℤ} (hx : 0 ≤ x) (hm : x < (m : ℝ)) : pyTrunc x < m := by
  rw [pyTrunc_eq_floor hx]
  exact Int.floor_lt.mpr hm

theorem eq_floor_add_half {x : ℝ} (h : Int.fract x = 1 / 2) : x = (⌊x⌋ : ℝ) + 1 / 2 := by
  have := Int.floor_add_fract x
  rw [h] at this
  linarith

theorem round_mono : Monotone (round : ℝ → ℤ) := by
  intro x y hxy
  rw [round_eq, round_eq]
  exact Int.floor_le_floor (by linarith)

theorem round_of_fract_half {x : ℝ} (h : Int.fract x = 1 / 2) : round x = ⌊x⌋ + 1 := by
  have hx := eq_floor_add_half h
  rw [round_eq]
  have h2 : x + 1 / 2 = ((⌊x⌋ + 1 : ℤ) : ℝ) := by push_cast; linarith
  rw [h2, Int.floor_intCast]

theorem pyRound_le_round (x : ℝ) : pyRound x ≤ round x := by
  unfold pyRound
  by_cases h : Int.fract x = 1 / 2
  · rw [if_pos h, round_of_fract_half h]
    by_cases he : Even ⌊x⌋
    · rw [if_pos he]; omega
    · rw [if_neg he]
  · rw [if_neg h]

theorem floor_le_pyRound (x : ℝ) : ⌊x⌋ ≤ pyRound x := by
  unfold pyRound
  by_cases h : Int.fract x = 1 / 2
  · rw [if_pos h]
    by_cases he : Even ⌊x⌋
    · rw [if_pos he]
    · rw [if_neg he]; omega
  · rw [if_neg h, round_eq]
    exact Int.floor_le_floor (by linarith)

theorem pyRound_mono : Monotone pyRound := by
  intro x y hxy
  by_cases hy : Int.fract y = 1 / 2
  · by_cases hx : Int.fract x = 1 / 2
    · have hxe : x = (⌊x⌋ : ℝ) + 1 / 2 := eq_floor_add_half hx
      have hye : y = (⌊y⌋ : ℝ) + 1 / 2 := eq_floor_add_half hy
      have hf : ⌊x⌋ ≤ ⌊y⌋ := Int.floor_le_floor hxy
      rcases eq_or_lt_of_le hf with heq | hlt
      · have : x = y := by rw [hxe, hye, heq]
        rw [this]
      · calc pyRound x ≤ round x := pyRound_le_round x
          _ = ⌊x⌋ + 1 := round_of_fract_half hx
          _ ≤ ⌊y⌋ := by omega
          _ ≤ pyRound y := floor_le_pyRound y
    · -- x is not a half-integer, y is: then x < y and round x ≤ ⌊y⌋
      have hxy' : x < y := lt_of_le_of_ne hxy (by rintro rfl; exact hx hy)
      have hye : y = (⌊y⌋ : ℝ) + 1 / 2 := eq_floor_add_half hy
      have h1 : round x ≤ ⌊y⌋ := by
        rw [round_eq]
        have h2 : ⌊x + 1 / 2⌋ < ⌊y⌋ + 1 :=
          Int.floor_lt.mpr (by push_cast; rw [hye] at hxy'; linarith)
        omega
      calc pyRound x ≤ round x := pyRound_le_round x
        _ ≤ ⌊y⌋ := h1
        _ ≤ pyRound y := floor_le_pyRound y
  · calc pyRound x ≤ round x := pyRound_le_round x
      _ ≤ round y := round_mono hxy
      _ = pyRound y := by unfold pyRound; rw [if_neg hy]

/-! ### Tile fetcher (`tile_fetcher.py`) -/

/-- An RGB pixel value. -/
abbrev Color := ℤ × ℤ × ℤ

/-- An in-memory decoded raster image (PIL image, after conversion to RGB).
Pixels outside `[0, width) × [0, height)` are junk values. -/
structure Img where
  width : ℤ
  height : ℤ
  pix : ℤ → ℤ → Color

/-- One entry of the `TileFetcher.PROVIDERS` table. -/
structure ProviderConfig where
  name : String
  url : String
  max_zoom : ℕ
  attribution : String
  tile_size : ℕ

/-- Embedding of the `TileFetcher.PROVIDERS` class constant. -/
def PROVIDERS : List (String × ProviderConfig) :=
  [("esri",
    { name := "Esri World Imagery"
      url := "https://server.arcgisonline.com/ArcGIS/rest/services/World_Imagery/MapServer/tile/{z}/{y}/{x}"
      max_zoom := 19
      attribution := "Esri, DigitalGlobe, GeoEye, Earthstar Geographics, CNES/Airbus DS, USDA, USGS, AeroGRID, IGN, and the GIS User Community"
      tile_size := 256 }),
   ("osm",
    { name := "OpenStreetMap"
      url := "https://tile.openstreetmap.org/{z}/{x}/{y}.png"
      max_zoom := 19
      attribution := "OpenStreetMap contributors"
      tile_size := 256 }),
   ("usgs",
    { name := "USGS Imagery"
      url := "https://basemap.nationalmap.gov/arcgis/rest/services/USGSImageryOnly/MapServer/tile/{z}/{y}/{x}"
      max_zoom := 16
      attribution := "USGS"
      tile_size := 256 })]

/-- The state of a constructed `TileFetcher` instance. -/
structure TileFetcher where
  provider : String
  provider_config : ProviderConfig
  cache_dir : String

/-- Embedding of `TileFetcher.__init__`: raising `ValueError` for a provider
name outside `PROVIDERS` is modelled by `Except.error`. -/
def TileFetcher.init (provider : String) (cache_dir : String) : Except String TileFetcher :=
  match PROVIDERS.lookup provider with
  | none => .error ("Unknown provider: " ++ provider)
  | some cfg => .ok { provider := provider, provider_config := cfg, cache_dir := cache_dir }

/-- A cache file for a tile key: either a decodable image (the PNG codec is
lossless, so the stored bytes are modelled by the decoded image itself) or a
corrupt entry whose load raises inside `fetch_tile`. -/
inductive CacheEntry where
  | corrupt : CacheEntry
  | good : Img → CacheEntry

/-- The outcome of the HTTP GET for one tile: a timeout, another transport
error, or a response with a status code and a body (an opaque byte-string
handle, modelled as `ℕ`). -/
inductive NetResult where
  | timeout : NetResult
  | netError : NetResult
  | response : ℕ → ℕ → NetResult

/-- The external world of one `TileFetcher` instance: the on-disk cache
contents per tile key `(z, x, y)`, the network behaviour per tile key, the
image decoder for network bodies, and whether the cache write for a key
fails. Only `cache` is mutated by a fetch. -/
structure FetchEnv where
  cache : ℤ × ℤ × ℤ → Option CacheEntry
  net : ℤ × ℤ × ℤ → NetResult
  decode : ℕ → Option Img
  saveFails : ℤ × ℤ × ℤ → Bool

/-- Embedding of `TileFetcher.fetch_tile`. Returns the fetched image (or
`none`, the Python `None`, on a per-tile failure), the updated environment,
and the number of network requests issued (0 or 1). The branch structure
follows the source: a cache hit returns a copy of the cached image; a corrupt
cache entry falls through to the network; a 200 response is decoded (a decode
failure is caught by the same `except` and yields `None`); the decoded image
is written back to the cache unless the write fails (non-fatal); any non-200
status, timeout or transport error yields `None`. -/
def fetch_tile (env : FetchEnv) (z x y : ℤ) (use_cache : Bool) :
    Option Img × FetchEnv × ℕ :=
  let key := (z, x, y)
  let cached : Option Img :=
    if use_cache then
      match env.cache key with
      | some (.good img) => some img
      | _ => none
    else none
  match cached with
  | some img => (some img, env, 0)
  | none =>
    match env.net key with
    | .response status body =>
      if status = 200 then
        match env.decode body with
        | some img =>
          let env' :=
            if use_cache && !env.saveFails key then
              { env with cache := fun k => if k = key then some (.good img) else env.cache k }
            else env
          (some img, env', 1)
        | none => (none, env, 1)
      else (none, env, 1)
    | .timeout => (none, env, 1)
    | .netError => (none, env, 1)

/-- The inclusive integer range `[a, b]` as a list (`range(a, b + 1)`). -/
def intRange (a b : ℤ) : List ℤ :=
  List.map (fun i : ℕ => a + (i : ℤ)) (List.range (b + 1 - a).toNat)

/-- The tile keys visited by the nested loops of `fetch_tiles`:
outer loop over x, inner loop over y. -/
def keyList (tb : TileBounds) : List (ℤ × ℤ) :=
  (intRange tb.min_tile_x tb.max_tile_x).flatMap
    (fun x => (intRange tb.min_tile_y tb.max_tile_y).map (fun y => (x, y)))

/-- The loop body of `fetch_tiles`, sequentially fetching each key and
collecting the successes (the Python dict, in insertion order). -/
def fetchLoop (env : FetchEnv) (z : ℤ) : List (ℤ × ℤ) → List ((ℤ × ℤ) × Img) × FetchEnv
  | [] => ([], env)
  | (x, y) :: rest =>
    let r := fetch_tile env z x y true
    let tailRes := fetchLoop r.2.1 z rest
    (match r.1 with
     | some img => ((x, y), img) :: tailRes.1
     | none => tailRes.1,
     tailRes.2)

/-- Embedding of `TileFetcher.fetch_tiles`: iterate over every `(x, y)` in
the rectangle, skipping tiles whose fetch failed. -/
def fetch_tiles (env : FetchEnv) (tb : TileBounds) : List ((ℤ × ℤ) × Img) × FetchEnv :=
  fetchLoop env (tb.zoom : ℤ) (keyList tb)

/-! ### Image stitcher (`image_stitcher.py`) -/

/-- Embedding of `canvas.paste(tile_img, (canvas_x, canvas_y))`: pixels in
the pasted rectangle come from the tile, all others keep their old value
(PIL clips a paste that goes beyond the canvas; clipping is implicit here
because only coordinates inside the canvas are ever meaningful). -/
def pasteImg (c : Img) (t : Img) (ox oy : ℤ) : Img :=
  { width := c.width
    height := c.height
    pix := fun p q =>
      if ox ≤ p ∧ p < ox + t.width ∧ oy ≤ q ∧ q < oy + t.height then
        t.pix (p - ox) (q - oy)
      else c.pix p q }

/-- The canvas stage of `ImageStitcher.stitch_tiles`, before any resize:
a `(tiles_wide * tile_size) × (tiles_high * tile_size)` canvas pre-filled
with the neutral colour `(200, 200, 200)`, with every tile of the mapping
pasted at `((x - min_x) * tile_size, (y - min_y) * tile_size)` in mapping
order. -/
def stitchCanvas (tile_size : ℤ) (tiles : List ((ℤ × ℤ) × Img)) (tb : TileBounds) : Img :=
  let canvas_width := (tb.max_tile_x - tb.min_tile_x + 1) * tile_size
  let canvas_height := (tb.max_tile_y - tb.min_tile_y + 1) * tile_size
  let canvas : Img := { width := canvas_width, height := canvas_height,
                        pix := fun _ _ => (200, 200, 200) }
  tiles.foldl
    (fun c t =>
      pasteImg c t.2 ((t.1.1 - tb.min_tile_x) * tile_size) ((t.1.2 - tb.min_tile_y) * tile_size))
    canvas

/-- Model of `canvas.resize(output_size, LANCZOS)`: the resampled pixel
content is an external PIL black box, passed in as `resample`; only the
output dimensions are fixed by the call. -/
def resizeImg (resample : Img → ℤ × ℤ → ℤ → ℤ → Color) (img : Img) (size : ℤ × ℤ) : Img :=
  { width := size.1, height := size.2, pix := resample img size }

/-- Embedding of `ImageStitcher.stitch_tiles`: build the canvas, then resize
to `output_size` exactly when the canvas dimensions differ from it. -/
def stitch_tiles (resample : Img → ℤ × ℤ → ℤ → ℤ → Color) (tile_size : ℤ)
    (tiles : List ((ℤ × ℤ) × Img)) (tb : TileBounds) (output_size : ℤ × ℤ) : Img :=
  let canvas := stitchCanvas tile_size tiles tb
  if (canvas.width, canvas.height) ≠ output_size then resizeImg resample canvas output_size
  else canvas

/-- Embedding of Python `range(start, stop, step)` as used by
`add_grid_overlay`: a zero step raises `ValueError` (`Except.error`). -/
def pyRangeStep (start stop step : ℤ) : Except String (List ℤ) :=
  if step = 0 then .error "range() arg 3 must not be zero"
  else if 0 < step then
    .ok ((List.range ((stop - start + step - 1).fdiv step).toNat).map
      (fun i => start + step * i))
  else
    .ok ((List.range ((stop - start + step + 1).fdiv step).toNat).map
      (fun i => start + step * i))

/-- Embedding of `ImageStitcher.add_grid_overlay`. The pixel spacing is
`int(grid_spacing_m / meters_per_pixel)`; the vertical and horizontal line
loops are `range(0, width, spacing)` and `range(0, height, spacing)`, which
raise `ValueError` when the spacing is zero. The actual rasterisation
(transparent overlay, `draw.line`, RGBA conversion, `alpha_composite`) is an
external PIL black box, passed in as `render`, applied to the base image and
the two lists of line positions. -/
noncomputable def add_grid_overlay (render : Img → List ℤ → List ℤ → Img) (image : Img)
    (grid_spacing_m meters_per_pixel : ℝ) : Except String Img :=
  let grid_spacing_px := pyTrunc (grid_spacing_m / meters_per_pixel)
  match pyRangeStep 0 image.width grid_spacing_px,
        pyRangeStep 0 image.height grid_spacing_px with
  | .ok xs, .ok ys => .ok (render image xs ys)
  | .error e, _ => .error e
  | _, .error e => .error e

/-! ### Claim C9: provider selection at construction time -/

/-- C9: constructing the tile fetch engine succeeds exactly for the provider
names of the configured closed set `esri`, `osm`, `usgs`; any other name is a
construction-time `ValueError` (`Except.error`), fatal to the instance. -/
theorem claim_C9 (provider cache_dir : String) :
    ((TileFetcher.init provider cache_dir).isOk ↔
      provider = "esri" ∨ provider = "osm" ∨ provider = "usgs") ∧
    ((¬ (provider = "esri" ∨ provider = "osm" ∨ provider = "usgs")) →
      TileFetcher.init provider cache_dir =
        .error ("Unknown provider: " ++ provider)) := by
  have hlookup : PROVIDERS.lookup provider =
      if provider = "esri" then some (PROVIDERS.get ⟨0, by norm_num [PROVIDERS]⟩).2
      else if provider = "osm" then some (PROVIDERS.get ⟨1, by norm_num [PROVIDERS]⟩).2
      else if provider = "usgs" then some (PROVIDERS.get ⟨2, by norm_num [PROVIDERS]⟩).2
      else none := by
    simp only [PROVIDERS, List.lookup]
    by_cases h1 : provider = "esri"
    · subst h1; simp
    · rw [if_neg h1]
      have b1 : (provider == "esri") = false := by simpa using h1
      by_cases h2 : provider = "osm"
      · subst h2; simp
      · rw [if_neg h2]
        have b2 : (provider == "osm") = false := by simpa using h2
        by_cases h3 : provider = "usgs"
        · subst h3; simp
        · rw [if_neg h3]
          have b3 : (provider == "usgs") = false := by simpa using h3
          simp [b1, b2, b3]
  constructor
  · unfold TileFetcher.init
    rw [hlookup]
    by_cases h1 : provider = "esri"
    · simp [h1, Except.isOk, Except.toBool]
    · by_cases h2 : provider = "osm"
      · simp [h1, h2, Except.isOk, Except.toBool]
      · by_cases h3 : provider = "usgs"
        · simp [h1, h2, h3, Except.isOk, Except.toBool]
        · simp [h1, h2, h3, Except.isOk, Except.toBool]
  · intro h
    push_neg at h
    unfold TileFetcher.init
    rw [hlookup, if_neg h.1, if_neg h.2.1, if_neg h.2.2]

/-! ### Claim C7: stitching always returns a canvas of the requested size -/

theorem pasteImg_width (c t : Img) (ox oy : ℤ) : (pasteImg c t ox oy).width = c.width := rfl

theorem pasteImg_height (c t : Img) (ox oy : ℤ) : (pasteImg c t ox oy).height = c.height := rfl

theorem foldl_pasteImg_width (ox oy : ((ℤ × ℤ) × Img) → ℤ) :
    ∀ (l : List ((ℤ × ℤ) × Img)) (c : Img),
      (l.foldl (fun c t => pasteImg c t.2 (ox t) (oy t)) c).width = c.width
  | [], _ => rfl
  | _ :: rest, c => foldl_pasteImg_width ox oy rest _

theorem foldl_pasteImg_height (ox oy : ((ℤ × ℤ) × Img) → ℤ) :
    ∀ (l : List ((ℤ × ℤ) × Img)) (c : Img),
      (l.foldl (fun c t => pasteImg c t.2 (ox t) (oy t)) c).height = c.height
  | [], _ => rfl
  | _ :: rest, c => foldl_pasteImg_height ox oy rest _

theorem stitchCanvas_width (ts : ℤ) (tiles : List ((ℤ × ℤ) × Img)) (tb : TileBounds) :
    (stitchCanvas ts tiles tb).width = (tb.max_tile_x - tb.min_tile_x + 1) * ts := by
  unfold stitchCanvas
  exact foldl_pasteImg_width _ _ tiles _

theorem stitchCanvas_height (ts : ℤ) (tiles : List ((ℤ × ℤ) × Img)) (tb : TileBounds) :
    (stitchCanvas ts tiles tb).height = (tb.max_tile_y - tb.min_tile_y + 1) * ts := by
  unfold stitchCanvas
  exact foldl_pasteImg_height _ _ tiles _

/-- C7: for every tile mapping (including the empty one and mappings missing
arbitrarily many tiles) and every rectangle with `min ≤ max` on both axes,
`stitch_tiles` returns an image whose dimensions are exactly the requested
output size; it is total (never fails) on partial coverage. -/
theorem claim_C7 (resample : Img → ℤ × ℤ → ℤ → ℤ → Color) (tile_size : ℤ)
    (tiles : List ((ℤ × ℤ) × Img)) (tb : TileBounds) (output_size : ℤ × ℤ)
    (hx : tb.min_tile_x ≤ tb.max_tile_x) (hy : tb.min_tile_y ≤ tb.max_tile_y) :
    (stitch_tiles resample tile_size tiles tb output_size).width = output_size.1 ∧
    (stitch_tiles resample tile_size tiles tb output_size).height = output_size.2 := by
  unfold stitch_tiles
  by_cases h : ((stitchCanvas tile_size tiles tb).width,
      (stitchCanvas tile_size tiles tb).height) ≠ output_size
  · rw [if_pos h]
    exact ⟨rfl, rfl⟩
  · rw [if_neg h]
    push_neg at h
    exact ⟨by rw [← h], by rw [← h]⟩

/-- Witness for C7 at a concrete degenerate rectangle and empty mapping. -/
theorem claim_C7_witness :
    ((0 : ℤ) ≤ 0 ∧ (0 : ℤ) ≤ 0) ∧
    ((stitch_tiles (fun _ _ _ _ => (0, 0, 0)) 256 [] ⟨0, 0, 0, 0, 0⟩ (1024, 1024)).width = 1024 ∧
     (stitch_tiles (fun _ _ _ _ => (0, 0, 0)) 256 [] ⟨0, 0, 0, 0, 0⟩ (1024, 1024)).height = 1024) :=
  ⟨⟨le_refl 0, le_refl 0⟩,
   claim_C7 (fun _ _ _ _ => (0, 0, 0)) 256 [] ⟨0, 0, 0, 0, 0⟩ (1024, 1024) (le_refl 0) (le_refl 0)⟩

/-! ### Claim C10: grid overlay fails exactly when the pixel spacing is zero -/

theorem pyRangeStep_zero (start stop : ℤ) :
    pyRangeStep start stop 0 = .error "range() arg 3 must not be zero" := by
  simp [pyRangeStep]

theorem pyRangeStep_ok_of_ne {step : ℤ} (h : step ≠ 0) (start stop : ℤ) :
    ∃ l, pyRangeStep start stop step = .ok l := by
  unfold pyRangeStep
  rw [if_neg h]
  by_cases hp : 0 < step
  · rw [if_pos hp]; exact ⟨_, rfl⟩
  · rw [if_neg hp]; exact ⟨_, rfl⟩

theorem add_grid_overlay_of_spacing_zero (render : Img → List ℤ → List ℤ → Img)
    (image : Img) (gsm mpp : ℝ) (h : pyTrunc (gsm / mpp) = 0) :
    add_grid_overlay render image gsm mpp = .error "range() arg 3 must not be zero" := by
  simp only [add_grid_overlay, h, pyRangeStep_zero]

theorem add_grid_overlay_isOk_of_spacing_ne (render : Img → List ℤ → List ℤ → Img)
    (image : Img) (gsm mpp : ℝ) (h : pyTrunc (gsm / mpp) ≠ 0) :
    (add_grid_overlay render image gsm mpp).isOk = true := by
  obtain ⟨xs, hxs⟩ := pyRangeStep_ok_of_ne h 0 image.width
  obtain ⟨ys, hys⟩ := pyRangeStep_ok_of_ne h 0 image.height
  simp only [add_grid_overlay, hxs, hys]
  rfl

/-- C10: with positive `grid_spacing_m` and `meters_per_pixel`, the grid
overlay succeeds if and only if the computed pixel spacing
`int(grid_spacing_m / meters_per_pixel)` is at least 1; in particular when
`grid_spacing_m < meters_per_pixel` the spacing is 0 and the call raises
(`ValueError` from `range(0, width, 0)`) instead of returning an image. -/
theorem claim_C10 (render : Img → List ℤ → List ℤ → Img) (image : Img)
    (gsm mpp : ℝ) (h1 : 0 < gsm) (h2 : 0 < mpp) :
    ((add_grid_overlay render image gsm mpp).isOk = true ↔ 1 ≤ pyTrunc (gsm / mpp)) ∧
    (gsm < mpp → pyTrunc (gsm / mpp) = 0 ∧
      add_grid_overlay render image gsm mpp = .error "range() arg 3 must not be zero") := by
  have hratio : 0 ≤ gsm / mpp := le_of_lt (div_pos h1 h2)
  have hnn : 0 ≤ pyTrunc (gsm / mpp) := pyTrunc_nonneg hratio
  constructor
  · constructor
    · intro hok
      by_contra hlt
      have hz : pyTrunc (gsm / mpp) = 0 := by
        have : pyTrunc (gsm / mpp) < 1 := lt_of_not_le hlt
        linarith
      rw [add_grid_overlay_of_spacing_zero render image gsm mpp hz] at hok
      exact absurd hok (by simp [Except.isOk, Except.toBool])
    · intro hge
      exact add_grid_overlay_isOk_of_spacing_ne render image gsm mpp (by intro h0; rw [h0] at hge; norm_num at hge)
  · intro hlt
    have hlt1 : gsm / mpp < 1 := (div_lt_one h2).mpr hlt
    have hz : pyTrunc (gsm / mpp) = 0 := by
      rw [pyTrunc_eq_floor hratio]
      exact Int.floor_eq_zero_iff.mpr ⟨hratio, hlt1⟩
    exact ⟨hz, add_grid_overlay_of_spacing_zero render image gsm mpp hz⟩

/-- Witness for C10 at the concrete input `grid_spacing_m = 1`,
`meters_per_pixel = 2`. -/
theorem claim_C10_witness :
    ((0 : ℝ) < 1 ∧ (0 : ℝ) < 2) ∧
    (((add_grid_overlay (fun i _ _ => i) ⟨1, 1, fun _ _ => (0, 0, 0)⟩ 1 2).isOk = true ↔
        1 ≤ pyTrunc ((1 : ℝ) / 2)) ∧
     ((1 : ℝ) < 2 → pyTrunc ((1 : ℝ) / 2) = 0 ∧
        add_grid_overlay (fun i _ _ => i) ⟨1, 1, fun _ _ => (0, 0, 0)⟩ 1 2 =
          .error "range() arg 3 must not be zero")) :=
  ⟨⟨by norm_num, by norm_num⟩,
   claim_C10 (fun i _ _ => i) ⟨1, 1, fun _ _ => (0, 0, 0)⟩ 1 2 (by norm_num) (by norm_num)⟩

/-! ### Claim C4: tile-containment round-trip -/

theorem radians_degrees_id (r : ℝ) : radians (degrees r) = r := by
  unfold radians degrees
  field_simp

/-- C4: for every point in the Web-Mercator latitude band and every zoom,
converting the tile index back to geographic coordinates with `tileToGeo`
and mapping the result through `geoToTile` again yields the original tile
index (tile containment, not coordinate equality). -/
theorem claim_C4 (lat lon : ℝ) (z : ℕ) (hlat1 : -85.05 ≤ lat) (hlat2 : lat ≤ 85.05)
    (hlon1 : -180 ≤ lon) (hlon2 : lon ≤ 180) :
    lat_lon_to_tile
      (tile_to_lat_lon (lat_lon_to_tile lat lon z).1 (lat_lon_to_tile lat lon z).2 z).1
      (tile_to_lat_lon (lat_lon_to_tile lat lon z).1 (lat_lon_to_tile lat lon z).2 z).2
      z = lat_lon_to_tile lat lon z := by
  have hn : (2 : ℝ) ^ z ≠ 0 := by positivity
  obtain ⟨tx, ty, ht⟩ : ∃ tx ty, lat_lon_to_tile lat lon z = (tx, ty) :=
    ⟨_, _, rfl⟩
  rw [ht]
  simp only [tile_to_lat_lon, lat_lon_to_tile]
  have hx : (((tx : ℝ) / 2 ^ z * 360 - 180) + 180) / 360 * 2 ^ z = ((tx : ℤ) : ℝ) := by
    field_simp
    ring
  have hy : (1 - Real.arsinh (Real.tan (radians (degrees (Real.arctan
      (Real.sinh (Real.pi * (1 - 2 * (ty : ℝ) / 2 ^ z))))))) / Real.pi) / 2 * 2 ^ z
      = ((ty : ℤ) : ℝ) := by
    rw [radians_degrees_id, Real.tan_arctan, Real.arsinh_sinh]
    field_simp [Real.pi_ne_zero]
    ring
  rw [hx, hy, pyTrunc_intCast, pyTrunc_intCast]

/-- Witness for C4 at the concrete point `(0, 0)` and zoom 1. -/
theorem claim_C4_witness :
    ((-85.05 ≤ (0 : ℝ) ∧ (0 : ℝ) ≤ 85.05) ∧ (-180 ≤ (0 : ℝ) ∧ (0 : ℝ) ≤ 180)) ∧
    lat_lon_to_tile
      (tile_to_lat_lon (lat_lon_to_tile 0 0 1).1 (lat_lon_to_tile 0 0 1).2 1).1
      (tile_to_lat_lon (lat_lon_to_tile 0 0 1).1 (lat_lon_to_tile 0 0 1).2 1).2
      1 = lat_lon_to_tile 0 0 1 :=
  ⟨⟨⟨by norm_num, by norm_num⟩, ⟨by norm_num, by norm_num⟩⟩,
   claim_C4 0 0 1 (by norm_num) (by norm_num) (by norm_num) (by norm_num)⟩

/-! ### Claim C5: optimal zoom is monotone and clamped to `[0, 19]` -/

theorem cos_radians_pos {lat : ℝ} (hlat : |lat| < 90) : 0 < Real.cos (radians lat) := by
  have hpi := Real.pi_pos
  obtain ⟨hl1, hl2⟩ := abs_lt.mp hlat
  apply Real.cos_pos_of_mem_Ioo
  constructor
  · show -(Real.pi / 2) < lat * Real.pi / 180
    nlinarith
  · show lat * Real.pi / 180 < Real.pi / 2
    nlinarith

/-- C5: for fixed positive `image_size` and fixed latitude with
`|latitude| < 90`, `calculate_optimal_zoom` is monotonically non-increasing
in positive `width_m`, and its output is always an integer in `[0, 19]`. -/
theorem claim_C5 (image_size lat w1 w2 : ℝ) (hs : 0 < image_size) (hlat : |lat| < 90)
    (hw1 : 0 < w1) (hw12 : w1 ≤ w2) :
    calculate_optimal_zoom w2 image_size lat ≤ calculate_optimal_zoom w1 image_size lat ∧
    0 ≤ calculate_optimal_zoom w1 image_size lat ∧
    calculate_optimal_zoom w1 image_size lat ≤ 19 := by
  have hcos := cos_radians_pos hlat
  have hbase : (0 : ℝ) < 156543.03392 * Real.cos (radians lat) :=
    mul_pos (by norm_num) hcos
  have ht1 : 0 < w1 / image_size := div_pos hw1 hs
  have ht2 : 0 < w2 / image_size := div_pos (lt_of_lt_of_le hw1 hw12) hs
  have hdiv12 : w1 / image_size ≤ w2 / image_size :=
    (div_le_div_iff_of_pos_right hs).mpr hw12
  have harg : 156543.03392 * Real.cos (radians lat) / (w2 / image_size) ≤
      156543.03392 * Real.cos (radians lat) / (w1 / image_size) := by
    gcongr
  have hlog : Real.logb 2 (156543.03392 * Real.cos (radians lat) / (w2 / image_size)) ≤
      Real.logb 2 (156543.03392 * Real.cos (radians lat) / (w1 / image_size)) :=
    Real.logb_le_logb_of_le (by norm_num) (div_pos hbase ht2) harg
  have hround := pyRound_mono hlog
  refine ⟨?_, ?_, ?_⟩
  · simp only [calculate_optimal_zoom]
    exact max_le_max (le_refl 0) (min_le_min (le_refl 19) hround)
  · simp only [calculate_optimal_zoom]
    exact le_max_left 0 _
  · simp only [calculate_optimal_zoom]
    exact max_le (by norm_num) (min_le_left _ _)

/-- Witness for C5 at `image_size = 1024`, `lat = 0`, `w1 = w2 = 500`. -/
theorem claim_C5_witness :
    ((0 : ℝ) < 1024 ∧ |(0 : ℝ)| < 90 ∧ (0 : ℝ) < 500 ∧ (500 : ℝ) ≤ 500) ∧
    (calculate_optimal_zoom 500 1024 0 ≤ calculate_optimal_zoom 500 1024 0 ∧
     0 ≤ calculate_optimal_zoom 500 1024 0 ∧ calculate_optimal_zoom 500 1024 0 ≤ 19) :=
  ⟨⟨by norm_num, by norm_num, by norm_num, by norm_num⟩,
   claim_C5 1024 0 500 500 (by norm_num) (by norm_num) (by norm_num) (by norm_num)⟩

/-! ### Claim C6: cache idempotence of `fetch_tile` -/

theorem fetch_tile_cache_hit (env : FetchEnv) (z x y : ℤ) (i : Img)
    (h : env.cache (z, x, y) = some (.good i)) :
    fetch_tile env z x y true = (some i, env, 0) := by
  simp [fetch_tile, h]

theorem fetch_tile_network_write (env : FetchEnv) (z x y : ℤ) (img : Img)
    (hres : (fetch_tile env z x y true).1 = some img)
    (hnet : (fetch_tile env z x y true).2.2 = 1)
    (hsave : env.saveFails (z, x, y) = false) :
    (fetch_tile env z x y true).2.1.cache (z, x, y) = some (.good img) := by
  rcases hc : env.cache (z, x, y) with _ | entry
  · rcases hn : env.net (z, x, y) with _ | _ | ⟨status, body⟩
    · simp [fetch_tile, hc, hn] at hres
    · simp [fetch_tile, hc, hn] at hres
    · by_cases h200 : status = 200
      · rcases hd : env.decode body with _ | i
        · simp [fetch_tile, hc, hn, h200, hd] at hres
        · have himg : i = img := by
            simpa [fetch_tile, hc, hn, h200, hd] using hres
          subst himg
          simp [fetch_tile, hc, hn, h200, hd, hsave]
      · simp [fetch_tile, hc, hn, h200] at hres
  · rcases entry with _ | i
    · rcases hn : env.net (z, x, y) with _ | _ | ⟨status, body⟩
      · simp [fetch_tile, hc, hn] at hres
      · simp [fetch_tile, hc, hn] at hres
      · by_cases h200 : status = 200
        · rcases hd : env.decode body with _ | i
          · simp [fetch_tile, hc, hn, h200, hd] at hres
          · have himg : i = img := by
              simpa [fetch_tile, hc, hn, h200, hd] using hres
            subst himg
            simp [fetch_tile, hc, hn, h200, hd, hsave]
        · simp [fetch_tile, hc, hn, h200] at hres
    · have hhit := fetch_tile_cache_hit env z x y i hc
      rw [hhit] at hnet
      exact absurd hnet (by norm_num)

/-- C6: if a `fetch_tile` call with caching enabled succeeds over the network
(one request issued) and its cache write succeeds, then a second call for the
same tile key is served entirely from the cache: it issues no network
request, leaves the environment unchanged, and returns the pixel-identical
image of the first call. -/
theorem claim_C6 (env : FetchEnv) (z x y : ℤ) (img : Img)
    (hres : (fetch_tile env z x y true).1 = some img)
    (hnet : (fetch_tile env z x y true).2.2 = 1)
    (hsave : env.saveFails (z, x, y) = false) :
    fetch_tile ((fetch_tile env z x y true).2.1) z x y true =
      (some img, (fetch_tile env z x y true).2.1, 0) :=
  fetch_tile_cache_hit _ z x y img (fetch_tile_network_write env z x y img hres hnet hsave)

/-- A one-pixel test image for the C6 witness. -/
def testImg : Img := ⟨1, 1, fun _ _ => (7, 7, 7)⟩

/-- A concrete environment for the C6 witness: empty cache, a network that
always answers 200 with a body that decodes to `testImg`, and reliable cache
writes. -/
def testEnv : FetchEnv :=
  { cache := fun _ => none
    net := fun _ => .response 200 0
    decode := fun _ => some testImg
    saveFails := fun _ => false }

/-- Witness for C6 at the concrete environment `testEnv` and tile `(1,2,3)`. -/
theorem claim_C6_witness :
    ((fetch_tile testEnv 1 2 3 true).1 = some testImg ∧
     (fetch_tile testEnv 1 2 3 true).2.2 = 1 ∧
     testEnv.saveFails (1, 2, 3) = false) ∧
    fetch_tile ((fetch_tile testEnv 1 2 3 true).2.1) 1 2 3 true =
      (some testImg, (fetch_tile testEnv 1 2 3 true).2.1, 0) :=
  ⟨⟨rfl, rfl, rfl⟩, claim_C6 testEnv 1 2 3 testImg rfl rfl rfl⟩

/-! ### Claim C3: `fetch_tiles` returns one entry per successful tile -/

theorem fetch_tile_env_shape (env : FetchEnv) (z x y : ℤ) (c : Bool) :
    (fetch_tile env z x y c).2.1 = env ∨
    ∃ img, (fetch_tile env z x y c).2.1 =
      { env with cache := fun k => if k = (z, x, y) then some (.good img) else env.cache k } := by
  simp only [fetch_tile]
  repeat' split
  all_goals first
    | exact Or.inl rfl
    | exact Or.inr ⟨_, rfl⟩

theorem fetch_tile_preserves_net (env : FetchEnv) (z x y : ℤ) (c : Bool) :
    (fetch_tile env z x y c).2.1.net = env.net := by
  rcases fetch_tile_env_shape env z x y c with h | ⟨img, h⟩ <;> rw [h]

theorem fetch_tile_preserves_decode (env : FetchEnv) (z x y : ℤ) (c : Bool) :
    (fetch_tile env z x y c).2.1.decode = env.decode := by
  rcases fetch_tile_env_shape env z x y c with h | ⟨img, h⟩ <;> rw [h]

theorem fetch_tile_cache_other (env : FetchEnv) (z x y : ℤ) (c : Bool)
    (k : ℤ × ℤ × ℤ) (hk : k ≠ (z, x, y)) :
    (fetch_tile env z x y c).2.1.cache k = env.cache k := by
  rcases fetch_tile_env_shape env z x y c with h | ⟨img, h⟩ <;> rw [h]
  simp [hk]

theorem fetch_tile_fst_congr (env1 env2 : FetchEnv) (z x y : ℤ)
    (hc : env1.cache (z, x, y) = env2.cache (z, x, y))
    (hn : env1.net (z, x, y) = env2.net (z, x, y))
    (hd : env1.decode = env2.decode) :
    (fetch_tile env1 z x y true).1 = (fetch_tile env2 z x y true).1 := by
  rcases hc2 : env2.cache (z, x, y) with _ | entry
  case none =>
    have hc1 := hc.trans hc2
    rcases hn2 : env2.net (z, x, y) with _ | _ | ⟨status, body⟩
    · simp [fetch_tile, hc1, hc2, hn.trans hn2, hn2]
    · simp [fetch_tile, hc1, hc2, hn.trans hn2, hn2]
    · by_cases h200 : status = 200
      · have hd1 : env1.decode body = env2.decode body := by rw [hd]
        rcases hd2 : env2.decode body with _ | i
        · simp [fetch_tile, hc1, hc2, hn.trans hn2, hn2, h200, hd1.trans hd2, hd2]
        · simp [fetch_tile, hc1, hc2, hn.trans hn2, hn2, h200, hd1.trans hd2, hd2]
      · simp [fetch_tile, hc1, hc2, hn.trans hn2, hn2, h200]
  case some =>
    have hc1 := hc.trans hc2
    rcases entry with _ | i
    case corrupt =>
      rcases hn2 : env2.net (z, x, y) with _ | _ | ⟨status, body⟩
      · simp [fetch_tile, hc1, hc2, hn.trans hn2, hn2]
      · simp [fetch_tile, hc1, hc2, hn.trans hn2, hn2]
      · by_cases h200 : status = 200
        · have hd1 : env1.decode body = env2.decode body := by rw [hd]
          rcases hd2 : env2.decode body with _ | i
          · simp [fetch_tile, hc1, hc2, hn.trans hn2, hn2, h200, hd1.trans hd2, hd2]
          · simp [fetch_tile, hc1, hc2, hn.trans hn2, hn2, h200, hd1.trans hd2, hd2]
        · simp [fetch_tile, hc1, hc2, hn.trans hn2, hn2, h200]
    case good =>
      rw [fetch_tile_cache_hit env1 z x y i hc1, fetch_tile_cache_hit env2 z x y i hc2]

theorem fetchLoop_keys (z : ℤ) (env0 : FetchEnv) :
    ∀ (keys : List (ℤ × ℤ)) (env : FetchEnv),
      (∀ k ∈ keys, env.cache (z, k.1, k.2) = env0.cache (z, k.1, k.2)) →
      env.net = env0.net → env.decode = env0.decode → keys.Nodup →
      (fetchLoop env z keys).1.map Prod.fst =
        keys.filter (fun k => ((fetch_tile env0 z k.1 k.2 true).1).isSome) := by
  intro keys
  induction keys with
  | nil => intro env _ _ _ _; rfl
  | cons hd tl ih =>
    intro env hcache hnet hdec hnd
    obtain ⟨x, y⟩ := hd
    rw [List.filter_cons]
    have hfst : (fetch_tile env z x y true).1 = (fetch_tile env0 z x y true).1 :=
      fetch_tile_fst_congr env env0 z x y (hcache (x, y) (by simp))
        (by rw [hnet]) hdec
    have hrest : (fetchLoop (fetch_tile env z x y true).2.1 z tl).1.map Prod.fst =
        tl.filter (fun k => ((fetch_tile env0 z k.1 k.2 true).1).isSome) := by
      apply ih
      · intro k hk
        have hne : (z, k.1, k.2) ≠ (z, x, y) := by
          intro he
          apply (List.nodup_cons.mp hnd).1
          have hkxy : k = (x, y) := by
            have h1 : k.1 = x := by injection he with _ h2; injection h2
            have h2 : k.2 = y := by injection he with _ h2; injection h2
            exact Prod.ext h1 h2
          rw [← hkxy]
          exact hk
        rw [fetch_tile_cache_other env z x y true _ hne]
        exact hcache k (List.mem_cons_of_mem _ hk)
      · rw [fetch_tile_preserves_net, hnet]
      · rw [fetch_tile_preserves_decode, hdec]
      · exact (List.nodup_cons.mp hnd).2
    simp only [fetchLoop]
    rcases hfv : (fetch_tile env z x y true).1 with _ | img
    · rw [hfv] at hfst
      rw [if_neg (by simp [← hfst])]
      simpa [hfv] using hrest
    · rw [hfv] at hfst
      rw [if_pos (by simp [← hfst])]
      simpa [hfv] using hrest

theorem intRange_nodup (a b : ℤ) : (intRange a b).Nodup := by
  unfold intRange
  apply List.Nodup.map _ (List.nodup_range _)
  intro i j h
  have h2 : a + (i : ℤ) = a + (j : ℤ) := h
  omega

theorem keyList_eq_product (tb : TileBounds) :
    keyList tb =
      (intRange tb.min_tile_x tb.max_tile_x) ×ˢ (intRange tb.min_tile_y tb.max_tile_y) := rfl

theorem keyList_nodup (tb : TileBounds) : (keyList tb).Nodup := by
  rw [keyList_eq_product]
  exact (intRange_nodup _ _).product (intRange_nodup _ _)

theorem intRange_length (a b : ℤ) : (intRange a b).length = (b + 1 - a).toNat := by
  rw [intRange, List.length_map, List.length_range]

theorem keyList_length (tb : TileBounds)
    (hx : tb.min_tile_x ≤ tb.max_tile_x) (hy : tb.min_tile_y ≤ tb.max_tile_y) :
    (keyList tb).length =
      ((tb.max_tile_x - tb.min_tile_x + 1) * (tb.max_tile_y - tb.min_tile_y + 1)).toNat := by
  rw [keyList_eq_product, List.length_product, intRange_length, intRange_length]
  have hA : (0 : ℤ) ≤ tb.max_tile_x + 1 - tb.min_tile_x := by omega
  have hB : (0 : ℤ) ≤ tb.max_tile_y + 1 - tb.min_tile_y := by omega
  have h1 : (((tb.max_tile_x + 1 - tb.min_tile_x).toNat *
      (tb.max_tile_y + 1 - tb.min_tile_y).toNat : ℕ) : ℤ) =
      (tb.max_tile_x - tb.min_tile_x + 1) * (tb.max_tile_y - tb.min_tile_y + 1) := by
    push_cast [Int.toNat_of_nonneg hA, Int.toNat_of_nonneg hB]
    ring
  have h2 : ((((tb.max_tile_x - tb.min_tile_x + 1) *
      (tb.max_tile_y - tb.min_tile_y + 1)).toNat : ℕ) : ℤ) =
      (tb.max_tile_x - tb.min_tile_x + 1) * (tb.max_tile_y - tb.min_tile_y + 1) :=
    Int.toNat_of_nonneg (mul_nonneg (by omega) (by omega))
  exact Nat.cast_injective (h1.trans h2.symm)

/-- C3: for a rectangle of `N = (max_x - min_x + 1) * (max_y - min_y + 1)`
tiles of which `M` individual fetches fail (timeout, non-200 status, decode
failure, transport error), `fetch_tiles` returns a mapping with exactly
`N - M` entries, whose keys are exactly the successful tiles in loop order;
a per-tile failure only removes that key (the model is total: no exception
aborts the batch). -/
theorem claim_C3 (env : FetchEnv) (tb : TileBounds)
    (hx : tb.min_tile_x ≤ tb.max_tile_x) (hy : tb.min_tile_y ≤ tb.max_tile_y) :
    (fetch_tiles env tb).1.length =
      ((tb.max_tile_x - tb.min_tile_x + 1) * (tb.max_tile_y - tb.min_tile_y + 1)).toNat -
        (keyList tb).countP
          (fun k => ((fetch_tile env (tb.zoom : ℤ) k.1 k.2 true).1).isNone) ∧
    (fetch_tiles env tb).1.map Prod.fst =
      (keyList tb).filter
        (fun k => ((fetch_tile env (tb.zoom : ℤ) k.1 k.2 true).1).isSome) := by
  have hkeys : (fetch_tiles env tb).1.map Prod.fst =
      (keyList tb).filter
        (fun k => ((fetch_tile env (tb.zoom : ℤ) k.1 k.2 true).1).isSome) :=
    fetchLoop_keys (tb.zoom : ℤ) env (keyList tb) env (fun _ _ => rfl) rfl rfl
      (keyList_nodup tb)
  refine ⟨?_, hkeys⟩
  have hlen1 : (fetch_tiles env tb).1.length =
      ((fetch_tiles env tb).1.map Prod.fst).length := (List.length_map _ _).symm
  rw [hlen1, hkeys, ← List.countP_eq_length_filter]
  have hpart := List.length_eq_countP_add_countP
    (fun k => ((fetch_tile env (tb.zoom : ℤ) k.1 k.2 true).1).isSome) (keyList tb)
  have hcong : (keyList tb).countP
      (fun k => decide ¬ ((fetch_tile env (tb.zoom : ℤ) k.1 k.2 true).1).isSome = true) =
      (keyList tb).countP
        (fun k => ((fetch_tile env (tb.zoom : ℤ) k.1 k.2 true).1).isNone) := by
    apply List.countP_congr
    intro k _
    rcases (fetch_tile env (tb.zoom : ℤ) k.1 k.2 true).1 with _ | i <;> simp
  rw [hcong] at hpart
  rw [keyList_length tb hx hy] at hpart
  omega

/-- A concrete environment for the C3 witness: the network always times
out, so every fetch in the batch fails and the result is empty. -/
def failEnv : FetchEnv :=
  { cache := fun _ => none
    net := fun _ => .timeout
    decode := fun _ => none
    saveFails := fun _ => false }

/-- Witness for C3 on a concrete 1x2 rectangle under `failEnv`. -/
theorem claim_C3_witness :
    ((0 : ℤ) ≤ 0 ∧ (0 : ℤ) ≤ 1) ∧
    ((fetch_tiles failEnv ⟨0, 0, 0, 1, 5⟩).1.length =
      ((0 - 0 + 1) * (1 - 0 + 1) : ℤ).toNat -
        (keyList ⟨0, 0, 0, 1, 5⟩).countP
          (fun k => ((fetch_tile failEnv ((5 : ℕ) : ℤ) k.1 k.2 true).1).isNone) ∧
     (fetch_tiles failEnv ⟨0, 0, 0, 1, 5⟩).1.map Prod.fst =
      (keyList ⟨0, 0, 0, 1, 5⟩).filter
        (fun k => ((fetch_tile failEnv ((5 : ℕ) : ℤ) k.1 k.2 true).1).isSome)) :=
  ⟨⟨le_refl 0, by norm_num⟩, claim_C3 failEnv ⟨0, 0, 0, 1, 5⟩ (le_refl 0) (by norm_num)⟩

/-! ### Claim C8: canvas fill colour and tile placement -/

theorem stitch_fold_pix_of_not_mem (tb : TileBounds) (tx ty u v : ℤ)
    (hu1 : 0 ≤ u) (hu2 : u < 256) (hv1 : 0 ≤ v) (hv2 : v < 256) :
    ∀ (l : List ((ℤ × ℤ) × Img)) (c : Img),
      (∀ t ∈ l, t.2.width = 256 ∧ t.2.height = 256) →
      (tx, ty) ∉ l.map Prod.fst →
      (l.foldl (fun c t => pasteImg c t.2 ((t.1.1 - tb.min_tile_x) * 256)
          ((t.1.2 - tb.min_tile_y) * 256)) c).pix
        ((tx - tb.min_tile_x) * 256 + u) ((ty - tb.min_tile_y) * 256 + v) =
      c.pix ((tx - tb.min_tile_x) * 256 + u) ((ty - tb.min_tile_y) * 256 + v) := by
  intro l
  induction l with
  | nil => intro c _ _; rfl
  | cons hd rest ih =>
    intro c hdims hnot
    obtain ⟨⟨tx', ty'⟩, img'⟩ := hd
    have hdims' := hdims _ (List.mem_cons_self _ _)
    have hw : img'.width = 256 := hdims'.1
    have hh : img'.height = 256 := hdims'.2
    have hne : (tx, ty) ≠ (tx', ty') := by
      intro he
      apply hnot
      rw [he, List.map_cons]
      exact List.mem_cons_self _ _
    have hxy : tx ≠ tx' ∨ ty ≠ ty' := by
      by_contra hcon
      push_neg at hcon
      exact hne (by rw [hcon.1, hcon.2])
    rw [List.foldl_cons]
    rw [ih _ (fun t ht => hdims t (List.mem_cons_of_mem _ ht))
      (fun hmem => hnot (List.mem_cons_of_mem _ hmem))]
    simp only [pasteImg]
    rw [hw, hh, if_neg (by omega)]

theorem stitch_fold_pix_of_mem (tb : TileBounds) (tx ty u v : ℤ) (img : Img)
    (hu1 : 0 ≤ u) (hu2 : u < 256) (hv1 : 0 ≤ v) (hv2 : v < 256) :
    ∀ (l : List ((ℤ × ℤ) × Img)) (c : Img),
      (∀ t ∈ l, t.2.width = 256 ∧ t.2.height = 256) →
      (l.map Prod.fst).Nodup →
      ((tx, ty), img) ∈ l →
      (l.foldl (fun c t => pasteImg c t.2 ((t.1.1 - tb.min_tile_x) * 256)
          ((t.1.2 - tb.min_tile_y) * 256)) c).pix
        ((tx - tb.min_tile_x) * 256 + u) ((ty - tb.min_tile_y) * 256 + v) =
      img.pix u v := by
  intro l
  induction l with
  | nil => intro c _ _ hmem; exact absurd hmem (List.not_mem_nil _)
  | cons hd rest ih =>
    intro c hdims hnd hmem
    obtain ⟨⟨tx', ty'⟩, img'⟩ := hd
    have hdims' := hdims _ (List.mem_cons_self _ _)
    have hw : img'.width = 256 := hdims'.1
    have hh : img'.height = 256 := hdims'.2
    rw [List.map_cons] at hnd
    rw [List.foldl_cons]
    rcases List.mem_cons.mp hmem with heq | hmem'
    · injection heq with ha hb
      injection ha with hx' hy'
      subst hx'
      subst hy'
      subst hb
      have hnotrest : (tx, ty) ∉ rest.map Prod.fst := (List.nodup_cons.mp hnd).1
      rw [stitch_fold_pix_of_not_mem tb tx ty u v hu1 hu2 hv1 hv2 rest _
        (fun t ht => hdims t (List.mem_cons_of_mem _ ht)) hnotrest]
      simp only [pasteImg]
      rw [hw, hh, if_pos (by omega)]
      have h1 : (tx - tb.min_tile_x) * 256 + u - (tx - tb.min_tile_x) * 256 = u := by ring
      have h2 : (ty - tb.min_tile_y) * 256 + v - (ty - tb.min_tile_y) * 256 = v := by ring
      rw [h1, h2]
    · apply ih _ (fun t ht => hdims t (List.mem_cons_of_mem _ ht))
        (List.nodup_cons.mp hnd).2 hmem'

/-- C8: stitching an empty tile mapping over a `W x H` rectangle with tile
pixel size 256 yields, before any resize, a `(W*256) x (H*256)` canvas every
pixel of which is the neutral fill colour `(200, 200, 200)`; and every tile
present in a mapping of distinct 256x256 tiles is placed at offset
`((x - min_x) * 256, (y - min_y) * 256)` on the canvas. -/
theorem claim_C8 :
    (∀ tb : TileBounds, tb.min_tile_x ≤ tb.max_tile_x → tb.min_tile_y ≤ tb.max_tile_y →
      (stitchCanvas 256 [] tb).width = (tb.max_tile_x - tb.min_tile_x + 1) * 256 ∧
      (stitchCanvas 256 [] tb).height = (tb.max_tile_y - tb.min_tile_y + 1) * 256 ∧
      ∀ p q : ℤ, (stitchCanvas 256 [] tb).pix p q = (200, 200, 200)) ∧
    (∀ (tiles : List ((ℤ × ℤ) × Img)) (tb : TileBounds),
      (tiles.map Prod.fst).Nodup →
      (∀ t ∈ tiles, t.2.width = 256 ∧ t.2.height = 256) →
      ∀ tx ty img, ((tx, ty), img) ∈ tiles →
      ∀ u v : ℤ, 0 ≤ u → u < 256 → 0 ≤ v → v < 256 →
      (stitchCanvas 256 tiles tb).pix
        ((tx - tb.min_tile_x) * 256 + u) ((ty - tb.min_tile_y) * 256 + v) = img.pix u v) := by
  constructor
  · intro tb _ _
    exact ⟨stitchCanvas_width 256 [] tb, stitchCanvas_height 256 [] tb, fun _ _ => rfl⟩
  · intro tiles tb hnd hdims tx ty img hmem u v hu1 hu2 hv1 hv2
    unfold stitchCanvas
    exact stitch_fold_pix_of_mem tb tx ty u v img hu1 hu2 hv1 hv2 tiles _ hdims hnd hmem

/-- A constant 256x256 tile used by the C8 witness. -/
def constTile : Img := ⟨256, 256, fun _ _ => (1, 2, 3)⟩

/-- Witness for C8: a degenerate 1x1 rectangle, the empty mapping on one
hand, and a single placed tile on the other. -/
theorem claim_C8_witness :
    (((0 : ℤ) ≤ 0) ∧ ([((0, 0), constTile)].map Prod.fst).Nodup ∧
      (∀ t ∈ [(((0 : ℤ), (0 : ℤ)), constTile)], t.2.width = 256 ∧ t.2.height = 256) ∧
      (((0 : ℤ), (0 : ℤ)), constTile) ∈ [(((0 : ℤ), (0 : ℤ)), constTile)]) ∧
    ((stitchCanvas 256 [] ⟨0, 0, 0, 0, 0⟩).pix 0 0 = (200, 200, 200) ∧
     (stitchCanvas 256 [((0, 0), constTile)] ⟨0, 0, 0, 0, 0⟩).pix
       ((0 - 0) * 256 + 0) ((0 - 0) * 256 + 0) = constTile.pix 0 0) :=
  ⟨⟨le_refl 0, by simp, fun t ht => by
      simp only [List.mem_singleton] at ht
      rw [ht]
      exact ⟨rfl, rfl⟩, by simp⟩,
   (claim_C8.1 ⟨0, 0, 0, 0, 0⟩ (le_refl 0) (le_refl 0)).2.2 0 0,
   claim_C8.2 [((0, 0), constTile)] ⟨0, 0, 0, 0, 0⟩ (by simp)
     (fun t ht => by simp only [List.mem_singleton] at ht; rw [ht]; exact ⟨rfl, rfl⟩) 0 0 constTile
     (by simp) 0 0 (le_refl 0) (by norm_num) (le_refl 0) (by norm_num)⟩

/-! ### Claim C1: the padded tile rectangle -/

theorem llt_fst (lat lon : ℝ) (z : ℕ) :
    (lat_lon_to_tile lat lon z).1 = pyTrunc ((lon + 180) / 360 * 2 ^ z) := rfl

theorem llt_snd (lat lon : ℝ) (z : ℕ) :
    (lat_lon_to_tile lat lon z).2 =
      pyTrunc ((1 - Real.arsinh (Real.tan (radians lat)) / Real.pi) / 2 * 2 ^ z) := rfl

theorem bbox_min_lat (clat clon w h : ℝ) :
    (calculate_bounding_box clat clon w h).min_lat = clat - degrees (h / 2 / 6378137) := rfl

theorem bbox_max_lat (clat clon w h : ℝ) :
    (calculate_bounding_box clat clon w h).max_lat = clat + degrees (h / 2 / 6378137) := rfl

theorem bbox_min_lon (clat clon w h : ℝ) :
    (calculate_bounding_box clat clon w h).min_lon =
      clon - degrees (w / 2 / (6378137 * Real.cos (radians clat))) := rfl

theorem bbox_max_lon (clat clon w h : ℝ) :
    (calculate_bounding_box clat clon w h).max_lon =
      clon + degrees (w / 2 / (6378137 * Real.cos (radians clat))) := rfl

theorem gtb_min_tile_x (clat clon w h : ℝ) (z : ℕ) (p : ℤ) :
    (get_tile_bounds clat clon w h z p).min_tile_x =
      (lat_lon_to_tile (calculate_bounding_box clat clon w h).min_lat
        (calculate_bounding_box clat clon w h).min_lon z).1 - p := rfl

theorem gtb_max_tile_x (clat clon w h : ℝ) (z : ℕ) (p : ℤ) :
    (get_tile_bounds clat clon w h z p).max_tile_x =
      (lat_lon_to_tile (calculate_bounding_box clat clon w h).max_lat
        (calculate_bounding_box clat clon w h).max_lon z).1 + p := rfl

theorem gtb_min_tile_y (clat clon w h : ℝ) (z : ℕ) (p : ℤ) :
    (get_tile_bounds clat clon w h z p).min_tile_y =
      (lat_lon_to_tile (calculate_bounding_box clat clon w h).max_lat
        (calculate_bounding_box clat clon w h).max_lon z).2 - p := rfl

theorem gtb_max_tile_y (clat clon w h : ℝ) (z : ℕ) (p : ℤ) :
    (get_tile_bounds clat clon w h z p).max_tile_y =
      (lat_lon_to_tile (calculate_bounding_box clat clon w h).min_lat
        (calculate_bounding_box clat clon w h).min_lon z).2 + p := rfl

theorem radians_lt_pi_div_two {l : ℝ} (hl : l < 90) : radians l < Real.pi / 2 := by
  unfold radians
  nlinarith [Real.pi_pos, mul_pos (sub_pos.mpr hl) Real.pi_pos]

theorem neg_pi_div_two_lt_radians {l : ℝ} (hl : -90 < l) : -(Real.pi / 2) < radians l := by
  unfold radians
  nlinarith [Real.pi_pos, mul_pos (sub_pos.mpr (by linarith : (-90 : ℝ) < l + 0)) Real.pi_pos,
    mul_pos (sub_pos.mpr hl) Real.pi_pos]

theorem mercator_arg_mono {l1 l2 : ℝ} (h1 : -90 < l1) (h12 : l1 ≤ l2) (h2 : l2 < 90) :
    Real.arsinh (Real.tan (radians l1)) ≤ Real.arsinh (Real.tan (radians l2)) := by
  rw [Real.arsinh_le_arsinh]
  rcases eq_or_lt_of_le h12 with heq | hlt
  · rw [heq]
  · apply le_of_lt
    apply Real.tan_lt_tan_of_lt_of_lt_pi_div_two
      (neg_pi_div_two_lt_radians h1) (radians_lt_pi_div_two h2)
    unfold radians
    nlinarith [Real.pi_pos, mul_pos (sub_pos.mpr hlt) Real.pi_pos]

theorem tile_x_mono {lon1 lon2 : ℝ} (h : lon1 ≤ lon2) (z : ℕ) :
    pyTrunc ((lon1 + 180) / 360 * 2 ^ z) ≤ pyTrunc ((lon2 + 180) / 360 * 2 ^ z) := by
  apply pyTrunc_mono
  have hn : (0 : ℝ) ≤ 2 ^ z := by positivity
  apply mul_le_mul_of_nonneg_right _ hn
  linarith

theorem tile_y_antimono {l1 l2 : ℝ} (h1 : -90 < l1) (h12 : l1 ≤ l2) (h2 : l2 < 90) (z : ℕ) :
    pyTrunc ((1 - Real.arsinh (Real.tan (radians l2)) / Real.pi) / 2 * 2 ^ z) ≤
      pyTrunc ((1 - Real.arsinh (Real.tan (radians l1)) / Real.pi) / 2 * 2 ^ z) := by
  apply pyTrunc_mono
  have hn : (0 : ℝ) ≤ 2 ^ z := by positivity
  apply mul_le_mul_of_nonneg_right _ hn
  have ha := mercator_arg_mono h1 h12 h2
  have hd := (div_le_div_iff_of_pos_right Real.pi_pos).mpr ha
  linarith

theorem tan_two_pi_div_three : Real.tan (2 * Real.pi / 3) = -Real.sqrt 3 := by
  have h : 2 * Real.pi / 3 = Real.pi - Real.pi / 3 := by ring
  rw [h, Real.tan_eq_sin_div_cos, Real.sin_pi_sub, Real.cos_pi_sub,
    Real.sin_pi_div_three, Real.cos_pi_div_three]
  field_simp

theorem sinh_pi_div_four_lt_sqrt_three : Real.sinh (Real.pi / 4) < Real.sqrt 3 := by
  have h1 : Real.sinh (Real.pi / 4) < Real.sinh 1 := by
    rw [Real.sinh_lt_sinh]
    nlinarith [Real.pi_lt_315]
  have h2 : Real.sinh 1 < 1.36 := by
    rw [Real.sinh_eq]
    have he := Real.exp_one_lt_d9
    have hexpneg : 0 < Real.exp (-1) := Real.exp_pos _
    nlinarith
  have h3 : (1.36 : ℝ) < Real.sqrt 3 := by
    have : ((1.36 : ℝ)) ^ 2 < 3 := by norm_num
    nlinarith [Real.sq_sqrt (by norm_num : (3:ℝ) ≥ 0),
      Real.sqrt_nonneg (3 : ℝ), sq_nonneg (Real.sqrt 3 - 1.36)]
  linarith

theorem pi_div_four_lt_arsinh_sqrt_three : Real.pi / 4 < Real.arsinh (Real.sqrt 3) := by
  have h := Real.arsinh_lt_arsinh.mpr sinh_pi_div_four_lt_sqrt_three
  rwa [Real.arsinh_sinh] at h

/-- C1 counterexample: at center latitude 60 (inside `|lat| < 90`), width 0,
height `2 * R * pi / 3` (whose half-height offset is 60 degrees of latitude,
so the bounding box reaches latitude 120, beyond the pole), zoom 3 and
padding 0, the returned rectangle has `max_tile_y < min_tile_y`: the claimed
bound `max_tile_y - min_tile_y + 1 >= 1 + 2 * padding` fails. -/
theorem claim_C1_counterexample :
    (|(60 : ℝ)| < 90 ∧ (0 : ℝ) ≤ 0 ∧ (0 : ℝ) ≤ 6378137 * (2 * Real.pi / 3) ∧ (0 : ℤ) ≤ 0) ∧
    ¬ (1 + 2 * 0 ≤
        (get_tile_bounds 60 0 0 (6378137 * (2 * Real.pi / 3)) 3 0).max_tile_y -
        (get_tile_bounds 60 0 0 (6378137 * (2 * Real.pi / 3)) 3 0).min_tile_y + 1) := by
  refine ⟨⟨by norm_num, le_refl 0, by positivity, le_refl 0⟩, ?_⟩
  have hminlat : (calculate_bounding_box 60 0 0 (6378137 * (2 * Real.pi / 3))).min_lat
      = 0 := by
    rw [bbox_min_lat]
    unfold degrees
    field_simp
    ring
  have hmaxlat : (calculate_bounding_box 60 0 0 (6378137 * (2 * Real.pi / 3))).max_lat
      = 120 := by
    rw [bbox_max_lat]
    unfold degrees
    field_simp
    ring
  have hmaxy : (get_tile_bounds 60 0 0 (6378137 * (2 * Real.pi / 3)) 3 0).max_tile_y
      = 4 := by
    rw [gtb_max_tile_y, llt_snd, hminlat]
    have hrad : radians 0 = 0 := by unfold radians; ring
    rw [hrad, Real.tan_zero, Real.arsinh_zero]
    have harg : (1 - 0 / Real.pi) / 2 * (2 : ℝ) ^ (3 : ℕ) = ((4 : ℤ) : ℝ) := by
      norm_num
    rw [harg, pyTrunc_intCast]
    omega
  have hminy : 5 ≤ (get_tile_bounds 60 0 0 (6378137 * (2 * Real.pi / 3)) 3 0).min_tile_y := by
    rw [gtb_min_tile_y, llt_snd, hmaxlat]
    have hrad : radians 120 = 2 * Real.pi / 3 := by unfold radians; ring
    rw [hrad, tan_two_pi_div_three, Real.arsinh_neg]
    have hs := pi_div_four_lt_arsinh_sqrt_three
    have hpi := Real.pi_pos
    have hquarter : (1 : ℝ) / 4 < Real.arsinh (Real.sqrt 3) / Real.pi := by
      rw [lt_div_iff hpi]
      linarith
    have harg : ((5 : ℤ) : ℝ) ≤
        (1 - -Real.arsinh (Real.sqrt 3) / Real.pi) / 2 * (2 : ℝ) ^ (3 : ℕ) := by
      push_cast
      have h8 : ((2 : ℝ) ^ (3 : ℕ)) = 8 := by norm_num
      have hexp : (1 - -Real.arsinh (Real.sqrt 3) / Real.pi) / 2 * 8 =
          4 + 4 * (Real.arsinh (Real.sqrt 3) / Real.pi) := by ring
      rw [h8, hexp]
      linarith
    have := le_pyTrunc (by norm_num) harg
    omega
  omega

/-- C1 as amended: with the additional hypothesis that the computed bounding
box stays strictly inside the latitude band `(-90, 90)` (which the original
claim omits and which the counterexample violates), the padded rectangle
satisfies both size bounds and contains the tile indices of all four
bounding-box corners. -/
theorem claim_C1 (clat clon w h : ℝ) (z : ℕ) (p : ℤ)
    (hc : |clat| < 90) (hw : 0 ≤ w) (hh : 0 ≤ h) (hp : 0 ≤ p)
    (hlo : -90 < (calculate_bounding_box clat clon w h).min_lat)
    (hhi : (calculate_bounding_box clat clon w h).max_lat < 90) :
    (1 + 2 * p ≤ (get_tile_bounds clat clon w h z p).max_tile_x -
      (get_tile_bounds clat clon w h z p).min_tile_x + 1) ∧
    (1 + 2 * p ≤ (get_tile_bounds clat clon w h z p).max_tile_y -
      (get_tile_bounds clat clon w h z p).min_tile_y + 1) ∧
    (∀ c ∈ [((calculate_bounding_box clat clon w h).min_lat,
             (calculate_bounding_box clat clon w h).min_lon),
            ((calculate_bounding_box clat clon w h).min_lat,
             (calculate_bounding_box clat clon w h).max_lon),
            ((calculate_bounding_box clat clon w h).max_lat,
             (calculate_bounding_box clat clon w h).min_lon),
            ((calculate_bounding_box clat clon w h).max_lat,
             (calculate_bounding_box clat clon w h).max_lon)],
      (get_tile_bounds clat clon w h z p).min_tile_x ≤ (lat_lon_to_tile c.1 c.2 z).1 ∧
      (lat_lon_to_tile c.1 c.2 z).1 ≤ (get_tile_bounds clat clon w h z p).max_tile_x ∧
      (get_tile_bounds clat clon w h z p).min_tile_y ≤ (lat_lon_to_tile c.1 c.2 z).2 ∧
      (lat_lon_to_tile c.1 c.2 z).2 ≤ (get_tile_bounds clat clon w h z p).max_tile_y) := by
  have hpi := Real.pi_pos
  have hcos : 0 < Real.cos (radians clat) := cos_radians_pos hc
  have hdlat : 0 ≤ degrees (h / 2 / 6378137) := by
    unfold degrees
    positivity
  have hdlon : 0 ≤ degrees (w / 2 / (6378137 * Real.cos (radians clat))) := by
    unfold degrees
    positivity
  have hlatle : (calculate_bounding_box clat clon w h).min_lat ≤
      (calculate_bounding_box clat clon w h).max_lat := by
    rw [bbox_min_lat, bbox_max_lat]
    linarith
  have hlonle : (calculate_bounding_box clat clon w h).min_lon ≤
      (calculate_bounding_box clat clon w h).max_lon := by
    rw [bbox_min_lon, bbox_max_lon]
    linarith
  have hxm : (lat_lon_to_tile (calculate_bounding_box clat clon w h).min_lat
        (calculate_bounding_box clat clon w h).min_lon z).1 ≤
      (lat_lon_to_tile (calculate_bounding_box clat clon w h).max_lat
        (calculate_bounding_box clat clon w h).max_lon z).1 := by
    rw [llt_fst, llt_fst]
    exact tile_x_mono hlonle z
  have hym : (lat_lon_to_tile (calculate_bounding_box clat clon w h).max_lat
        (calculate_bounding_box clat clon w h).max_lon z).2 ≤
      (lat_lon_to_tile (calculate_bounding_box clat clon w h).min_lat
        (calculate_bounding_box clat clon w h).min_lon z).2 := by
    rw [llt_snd, llt_snd]
    exact tile_y_antimono hlo hlatle hhi z
  refine ⟨?_, ?_, ?_⟩
  · rw [gtb_min_tile_x, gtb_max_tile_x]
    omega
  · rw [gtb_min_tile_y, gtb_max_tile_y]
    omega
  · intro c hcmem
    fin_cases hcmem <;>
      (refine ⟨?_, ?_, ?_, ?_⟩ <;>
        simp only [gtb_min_tile_x, gtb_max_tile_x, gtb_min_tile_y, gtb_max_tile_y,
          llt_fst, llt_snd] <;>
        first
          | omega
          | (have hmlon := tile_x_mono hlonle z
             omega)
          | (have hmlat := tile_y_antimono hlo hlatle hhi z
             omega))

/-- Witness for the amended C1 at center `(0, 0)`, zero width and height,
zoom 0 and padding 0. -/
theorem claim_C1_witness :
    (|(0 : ℝ)| < 90 ∧ (0 : ℝ) ≤ 0 ∧ (0 : ℝ) ≤ 0 ∧ (0 : ℤ) ≤ 0 ∧
      -90 < (calculate_bounding_box 0 0 0 0).min_lat ∧
      (calculate_bounding_box 0 0 0 0).max_lat < 90) ∧
    ((1 + 2 * 0 ≤ (get_tile_bounds 0 0 0 0 0 0).max_tile_x -
        (get_tile_bounds 0 0 0 0 0 0).min_tile_x + 1) ∧
     (1 + 2 * 0 ≤ (get_tile_bounds 0 0 0 0 0 0).max_tile_y -
        (get_tile_bounds 0 0 0 0 0 0).min_tile_y + 1) ∧
     (∀ c ∈ [((calculate_bounding_box (0 : ℝ) 0 0 0).min_lat,
              (calculate_bounding_box (0 : ℝ) 0 0 0).min_lon),
             ((calculate_bounding_box (0 : ℝ) 0 0 0).min_lat,
              (calculate_bounding_box (0 : ℝ) 0 0 0).max_lon),
             ((calculate_bounding_box (0 : ℝ) 0 0 0).max_lat,
              (calculate_bounding_box (0 : ℝ) 0 0 0).min_lon),
             ((calculate_bounding_box (0 : ℝ) 0 0 0).max_lat,
              (calculate_bounding_box (0 : ℝ) 0 0 0).max_lon)],
      (get_tile_bounds 0 0 0 0 0 0).min_tile_x ≤ (lat_lon_to_tile c.1 c.2 0).1 ∧
      (lat_lon_to_tile c.1 c.2 0).1 ≤ (get_tile_bounds 0 0 0 0 0 0).max_tile_x ∧
      (get_tile_bounds 0 0 0 0 0 0).min_tile_y ≤ (lat_lon_to_tile c.1 c.2 0).2 ∧
      (lat_lon_to_tile c.1 c.2 0).2 ≤ (get_tile_bounds 0 0 0 0 0 0).max_tile_y)) :=
  ⟨⟨by norm_num, le_refl 0, le_refl 0, le_refl 0,
    by rw [bbox_min_lat]; norm_num [degrees],
    by rw [bbox_max_lat]; norm_num [degrees]⟩,
   claim_C1 0 0 0 0 0 0 (by norm_num) (le_refl 0) (le_refl 0) (le_refl 0)
     (by rw [bbox_min_lat]; norm_num [degrees])
     (by rw [bbox_max_lat]; norm_num [degrees])⟩

/-! ### Claim C2: `lat_lon_to_tile` output range -/

/-- C2 counterexample: at latitude 0, longitude 180 (allowed by the claim)
and zoom 0, the x tile index is `int((180 + 180) / 360 * 1) = 1`, which is
not in the half-open range `[0, 2^0) = [0, 1)`. -/
theorem claim_C2_counterexample :
    ((-85.05 ≤ (0 : ℝ) ∧ (0 : ℝ) ≤ 85.05) ∧ (-180 ≤ (180 : ℝ) ∧ (180 : ℝ) ≤ 180)) ∧
    ¬ ((lat_lon_to_tile 0 180 0).1 < 2 ^ (0 : ℕ)) := by
  refine ⟨⟨⟨by norm_num, by norm_num⟩, ⟨by norm_num, le_refl 180⟩⟩, ?_⟩
  rw [llt_fst]
  have h1 : ((180 : ℝ) + 180) / 360 * 2 ^ (0 : ℕ) = ((1 : ℤ) : ℝ) := by norm_num
  rw [h1, pyTrunc_intCast]
  norm_num

theorem sin_08639378_lo : (0.0862834 : ℝ) ≤ Real.sin 0.08639378 := by
  have hsb := Real.sin_bound (x := 0.08639378) (abs_le.mpr (by norm_num))
  rw [abs_of_nonneg (by norm_num : (0 : ℝ) ≤ 0.08639378)] at hsb
  have h1 := (abs_le.mp hsb).1
  norm_num at h1 ⊢
  linarith

theorem cos_08639378_hi : Real.cos 0.08639378 ≤ 0.99627096 := by
  have hcb := Real.cos_bound (x := 0.08639378) (abs_le.mpr (by norm_num))
  rw [abs_of_nonneg (by norm_num : (0 : ℝ) ≤ 0.08639378)] at hcb
  have h1 := (abs_le.mp hcb).2
  norm_num at h1 ⊢
  linarith

theorem exp_3141592_lo : (23.1398 : ℝ) ≤ Real.exp 3.141592 := by
  have hexp3 : (20.0855369 : ℝ) ≤ Real.exp 3 := by
    have h3 : Real.exp 3 = Real.exp 1 ^ 3 := by
      rw [← Real.exp_nat_mul]
      norm_num
    rw [h3]
    calc (20.0855369 : ℝ) ≤ 2.7182818283 ^ 3 := by norm_num
      _ ≤ Real.exp 1 ^ 3 := pow_le_pow_left₀ (by norm_num) (le_of_lt Real.exp_one_gt_d9) 3
  have hexp014 : (1.152066 : ℝ) ≤ Real.exp 0.141592 := by
    have hb := Real.exp_bound (x := 0.141592) (abs_le.mpr (by norm_num)) (n := 4) (by norm_num)
    rw [abs_of_nonneg (by norm_num : (0 : ℝ) ≤ 0.141592)] at hb
    have h1 := (abs_le.mp hb).1
    norm_num [Finset.sum_range_succ, Nat.factorial] at h1
    linarith
  have hsplit : Real.exp 3.141592 = Real.exp 3 * Real.exp 0.141592 := by
    rw [← Real.exp_add]
    norm_num
  rw [hsplit]
  calc (23.1398 : ℝ) ≤ 20.0855369 * 1.152066 := by norm_num
    _ ≤ Real.exp 3 * Real.exp 0.141592 :=
        mul_le_mul hexp3 hexp014 (by norm_num) (le_of_lt (Real.exp_pos 3))

theorem sinh_pi_lo : (11.548 : ℝ) ≤ Real.sinh Real.pi := by
  have hexpneg : Real.exp (-3.141592) ≤ 0.04322 := by
    rw [Real.exp_neg]
    calc (Real.exp 3.141592)⁻¹ ≤ (23.1398 : ℝ)⁻¹ :=
          inv_anti₀ (by norm_num) exp_3141592_lo
      _ ≤ 0.04322 := by norm_num
  have hmono : Real.sinh 3.141592 ≤ Real.sinh Real.pi := by
    rw [Real.sinh_le_sinh]
    linarith [Real.pi_gt_3141592]
  have h6 : (11.548 : ℝ) ≤ Real.sinh 3.141592 := by
    rw [Real.sinh_eq]
    linarith [exp_3141592_lo, hexpneg]
  linarith

/-- The key numeric fact for C2: the Mercator y expression stays inside the
principal band on the claimed latitude range, because
`tan(85.05 degrees) < sinh(pi)`. -/
theorem tan_85_05_lt_sinh_pi : Real.tan (radians 85.05) < Real.sinh Real.pi := by
  have hpi6 := Real.pi_gt_3141592
  have hpi6' := Real.pi_lt_3141593
  have hpipos := Real.pi_pos
  have hθlo : (0.08639378 : ℝ) ≤ 0.0275 * Real.pi := by nlinarith
  have hθhi : (0.0275 : ℝ) * Real.pi ≤ 0.09 := by nlinarith
  have hθpos : (0 : ℝ) < 0.0275 * Real.pi := by nlinarith
  have hθlt : (0.0275 : ℝ) * Real.pi < Real.pi / 2 := by nlinarith
  have hsinθ : (0.0862834 : ℝ) ≤ Real.sin (0.0275 * Real.pi) := by
    refine le_trans sin_08639378_lo ?_
    exact Real.sin_le_sin_of_le_of_le_pi_div_two (by nlinarith) (le_of_lt hθlt) hθlo
  have hcosθ_hi : Real.cos (0.0275 * Real.pi) ≤ 0.99627096 :=
    le_trans (Real.cos_le_cos_of_nonneg_of_le_pi (by norm_num) (by nlinarith) hθlo)
      cos_08639378_hi
  have hcosθ_pos : 0 < Real.cos (0.0275 * Real.pi) :=
    Real.cos_pos_of_mem_Ioo ⟨by nlinarith, hθlt⟩
  have htan_lo : (0.0862834 / 0.99627096 : ℝ) ≤ Real.tan (0.0275 * Real.pi) := by
    rw [Real.tan_eq_sin_div_cos]
    exact div_le_div₀ (by linarith) hsinθ hcosθ_pos hcosθ_hi
  have htanpos : 0 < Real.tan (0.0275 * Real.pi) :=
    Real.tan_pos_of_pos_of_lt_pi_div_two hθpos hθlt
  have hsplit : radians 85.05 = Real.pi / 2 - 0.0275 * Real.pi := by
    unfold radians
    ring
  rw [hsplit, Real.tan_pi_div_two_sub, inv_eq_one_div, div_lt_iff₀ htanpos]
  calc (1 : ℝ) < (0.0862834 / 0.99627096) * 11.548 := by norm_num
    _ ≤ Real.tan (0.0275 * Real.pi) * 11.548 :=
        mul_le_mul_of_nonneg_right htan_lo (by norm_num)
    _ ≤ Real.tan (0.0275 * Real.pi) * Real.sinh Real.pi :=
        mul_le_mul_of_nonneg_left sinh_pi_lo (le_of_lt htanpos)
    _ = Real.sinh Real.pi * Real.tan (0.0275 * Real.pi) := mul_comm _ _

/-- C2 as amended: for zoom `z >= 0`, latitude in `[-85.05, 85.05]` and
longitude in the half-open interval `[-180, 180)` (the claim wrongly
included `lon = 180`, where the x index equals `2^z`), both tile indices
lie in `[0, 2^z)`; in particular `lat = 85.05` and `lon = -180` map to edge
tiles without overflow. -/
theorem claim_C2 (lat lon : ℝ) (z : ℕ)
    (hlat1 : -85.05 ≤ lat) (hlat2 : lat ≤ 85.05)
    (hlon1 : -180 ≤ lon) (hlon2 : lon < 180) :
    0 ≤ (lat_lon_to_tile lat lon z).1 ∧ (lat_lon_to_tile lat lon z).1 < 2 ^ z ∧
    0 ≤ (lat_lon_to_tile lat lon z).2 ∧ (lat_lon_to_tile lat lon z).2 < 2 ^ z := by
  have hpi := Real.pi_pos
  have hn : (0 : ℝ) < 2 ^ z := by positivity
  have hx0 : (0 : ℝ) ≤ (lon + 180) / 360 * 2 ^ z := by
    apply mul_nonneg _ (le_of_lt hn)
    linarith
  have hx1 : (lon + 180) / 360 * 2 ^ z < ((2 ^ z : ℤ) : ℝ) := by
    push_cast
    have hb : (lon + 180) / 360 < 1 := by linarith
    nlinarith
  have hub : Real.arsinh (Real.tan (radians lat)) < Real.pi := by
    have h1 : Real.arsinh (Real.tan (radians lat)) ≤
        Real.arsinh (Real.tan (radians 85.05)) :=
      mercator_arg_mono (by linarith) hlat2 (by norm_num)
    have h2 : Real.arsinh (Real.tan (radians 85.05)) <
        Real.arsinh (Real.sinh Real.pi) :=
      Real.arsinh_lt_arsinh.mpr tan_85_05_lt_sinh_pi
    rw [Real.arsinh_sinh] at h2
    linarith
  have hlb : -Real.pi < Real.arsinh (Real.tan (radians lat)) := by
    have h1 : Real.arsinh (Real.tan (radians (-85.05))) ≤
        Real.arsinh (Real.tan (radians lat)) :=
      mercator_arg_mono (by norm_num) hlat1 (by linarith)
    have hneg : radians (-85.05) = -(radians 85.05) := by
      unfold radians
      ring
    rw [hneg, Real.tan_neg, Real.arsinh_neg] at h1
    have h2 : Real.arsinh (Real.tan (radians 85.05)) < Real.pi := by
      have h3 := Real.arsinh_lt_arsinh.mpr tan_85_05_lt_sinh_pi
      rwa [Real.arsinh_sinh] at h3
    linarith
  have hy0 : (0 : ℝ) ≤
      (1 - Real.arsinh (Real.tan (radians lat)) / Real.pi) / 2 * 2 ^ z := by
    apply mul_nonneg _ (le_of_lt hn)
    have hd : Real.arsinh (Real.tan (radians lat)) / Real.pi < 1 := by
      rw [div_lt_one hpi]
      exact hub
    linarith
  have hy1 : (1 - Real.arsinh (Real.tan (radians lat)) / Real.pi) / 2 * 2 ^ z <
      ((2 ^ z : ℤ) : ℝ) := by
    push_cast
    have hd : (-1 : ℝ) < Real.arsinh (Real.tan (radians lat)) / Real.pi := by
      rw [lt_div_iff hpi]
      linarith
    nlinarith
  exact ⟨by rw [llt_fst]; exact pyTrunc_nonneg hx0,
         by rw [llt_fst]; exact pyTrunc_lt hx0 hx1,
         by rw [llt_snd]; exact pyTrunc_nonneg hy0,
         by rw [llt_snd]; exact pyTrunc_lt hy0 hy1⟩

/-- Witness for the amended C2 at latitude 0, longitude 0, zoom 0. -/
theorem claim_C2_witness :
    ((-85.05 ≤ (0 : ℝ) ∧ (0 : ℝ) ≤ 85.05) ∧ (-180 ≤ (0 : ℝ) ∧ (0 : ℝ) < 180)) ∧
    (0 ≤ (lat_lon_to_tile 0 0 0).1 ∧ (lat_lon_to_tile 0 0 0).1 < 2 ^ 0 ∧
     0 ≤ (lat_lon_to_tile 0 0 0).2 ∧ (lat_lon_to_tile 0 0 0).2 < 2 ^ 0) :=
  ⟨⟨⟨by norm_num, by norm_num⟩, ⟨by norm_num, by norm_num⟩⟩,
   claim_C2 0 0 0 (by norm_num) (by norm_num) (by norm_num) (by norm_num)⟩

end MapOverlay
